import Mathlib

/-!
# go-pam: group management and PAM accessors

A shallow embedding of `pam.go`.  The package is a thin layer over foreign
calls, so the foreign calls (`getgroups`, `setgroups`, `pam_get_user`,
`pam_get_item`) are oracles over a kernel state `σ`, and the Go functions are
state-passing functions over a `World σ`.

Conventions of the embedding:

* a Go `int` is an `Int` (64-bit platform; the code does no arithmetic on group
  values, only conversions, which are explicit `% 2^32`);
* a `C.gid_t` is a `Nat` read modulo `2^32`;
* a Go slice is a `List`; the nil slice and the empty slice are both `[]`;
* a run-time panic (index or slice bound out of range) is the result
  `Res.panicked`;
* `World.calls` is ghost state: it records the argument of every call of the
  Go function `SetGroups`, and is never read by the code.
-/

namespace GoPam

/-! ## Data model -/

/-- The Go type `pamError`, an integer code (`type pamError C.int`). -/
structure pamError where
  code : Int
deriving DecidableEq, Repr

/-- A non-nil Go `error` value of this package: either a `pamError` or the value of
`errors.New(msg)`.  The nil error is `none : Option GoError`. -/
inductive GoError where
  | pam (pe : pamError)
  | errorString (msg : String)
deriving DecidableEq, Repr

/-- The run-time panics the code can raise. -/
inductive Panic where
  | indexOutOfRange (index : Int) (len : Nat)
  | sliceBoundsOutOfRange (bound : Int) (cap : Nat)
  | makeLenOutOfRange (len : Int)
deriving DecidableEq, Repr

/-- Outcome of a Go call: it returns a value, or it panics. -/
inductive Res (α : Type) where
  | ret (a : α)
  | panicked (p : Panic)
deriving DecidableEq, Repr

/-- The process as the code sees it: the kernel state and the ghost log of the arguments
of the `SetGroups` calls made so far. -/
structure World (σ : Type) where
  os : σ
  calls : List (List Int)
deriving DecidableEq, Repr

/-- The group system calls.  `getgroups size s` is `getgroups(size, list)`: its return
value, the entries the kernel wrote into `list`, and the next state.
`setgroups size gids s` is `setgroups(size, list)`: its return value and the next state. -/
structure OS (σ : Type) where
  getgroups : Int → σ → Int × List Nat × σ
  setgroups : Nat → List Nat → σ → Int × σ

/-- The PAM library calls on a handle (a pointer, here a number).  Each yields the return
code, the C string stored through the out-parameter (`none` is the NULL pointer) and the
next state.  `PAM_RHOST` is the item type constant of `<security/pam_appl.h>`. -/
structure PAM (σ : Type) where
  PAM_RHOST : Int
  pam_get_user : Nat → σ → Int × Option String × σ
  pam_get_item : Nat → Int → σ → Int × Option String × σ

/-- Modelled from the spec: the constant `PAM_SUCCESS` of `<security/pam_appl.h>`, a C
header that is not part of the sources; it is the success code `0`. -/
def PAM_SUCCESS : Int := 0

/-- Handle is a handle type to hang the PAM methods off of. -/
structure Handle where
  Ptr : Nat
deriving DecidableEq, Repr

/-! ## Conversions and slice primitives -/

/-- The conversion `C.gid_t(v)` of a Go `int` to the 32-bit unsigned `gid_t`. -/
def intToGid (v : Int) : Nat := (v % 2 ^ 32).toNat

/-- The conversion `int(v)` of a `gid_t` (a 32-bit unsigned value) to a Go `int`. -/
def gidToInt (v : Nat) : Int := ((v % 2 ^ 32 : Nat) : Int)

/-- `C.GoString(p)`: the Go string of a C string, empty for the NULL pointer. -/
def GoString : Option String → String
  | none => ""
  | some s => s

/-- The verb `%d` of `fmt.Sprintf` on an integer: sign and decimal digits. -/
def fmtD (n : Int) : String :=
  if n < 0 then "-" ++ Nat.repr n.natAbs else Nat.repr n.natAbs

/-- `make([]int, n)`: a zeroed slice of length and capacity `n`; panics for negative `n`. -/
def makeInts (n : Int) : Res (List Int) :=
  if n < 0 then .panicked (.makeLenOutOfRange n) else .ret (List.replicate n.toNat 0)

/-- The assignment `s[idx] = v`, with its bounds check. -/
def setIndex (s : List Int) (idx : Int) (v : Int) : Res (List Int) :=
  if 0 ≤ idx ∧ idx < s.length then .ret (s.set idx.toNat v)
  else .panicked (.indexOutOfRange idx s.length)

/-- The slice expression `s[:hi]` on a slice whose capacity is its length, with its
bounds check. -/
def sliceTo (s : List Int) (hi : Int) : Res (List Int) :=
  if 0 ≤ hi ∧ hi ≤ s.length then .ret (s.take hi.toNat)
  else .panicked (.sliceBoundsOutOfRange hi s.length)

/-- The buffer `gids` after `getgroups(cnt, &gids[0])`: `make([]C.gid_t, cnt)` is zeroed
and the kernel overwrites its leading entries. -/
def fillBuf (cnt : Nat) (written : List Nat) : List Nat :=
  (written ++ List.replicate cnt 0).take cnt

/-! ## The functions of `pam.go` -/

/-- The method `pamError.Error`: `fmt.Sprintf("PAM error code %d", pe)`. -/
def pamError.Error (pe : pamError) : String :=
  "PAM error code " ++ fmtD pe.code

/-- The method `Error` of a Go error value. -/
def GoError.Error : GoError → String
  | .pam pe => pe.Error
  | .errorString msg => msg

/-- GetUser maps to the pam_get_user call, and returns the user that we are trying to
auth as. -/
def Handle.GetUser {σ : Type} (pam : PAM σ) (hdl : Handle) (w : World σ) :
    (String × Option GoError) × World σ :=
  match pam.pam_get_user hdl.Ptr w.os with
  | (err, usr, s1) =>
    if err ≠ PAM_SUCCESS then (("", some (.pam ⟨err⟩)), { w with os := s1 })
    else ((GoString usr, none), { w with os := s1 })

/-- GetRemoteHost maps to the pam_get_item call for `PAM_RHOST`, and returns the remote
host. -/
def Handle.GetRemoteHost {σ : Type} (pam : PAM σ) (hdl : Handle) (w : World σ) :
    (String × Option GoError) × World σ :=
  match pam.pam_get_item hdl.Ptr pam.PAM_RHOST w.os with
  | (err, rhost, s1) =>
    if err ≠ PAM_SUCCESS then (("", some (.pam ⟨err⟩)), { w with os := s1 })
    else ((GoString rhost, none), { w with os := s1 })

/-- SetGroups maps to the setgroups call to set a users secondary groups.  The
expression `&gids[0]` is an index expression, so it panics on an empty slice before the
system call is made. -/
def SetGroups {σ : Type} (os : OS σ) (groups : List Int) (w : World σ) :
    Res (Option GoError) × World σ :=
  let w0 : World σ := { w with calls := w.calls ++ [groups] }
  let gids := groups.map intToGid
  if 0 < gids.length then
    match os.setgroups groups.length gids w0.os with
    | (err, s1) =>
      if err ≠ PAM_SUCCESS then (.ret (some (.pam ⟨err⟩)), { w0 with os := s1 })
      else (.ret none, { w0 with os := s1 })
  else (.panicked (.indexOutOfRange 0 gids.length), w0)

/-- GetGroups maps to the getgroups call to return the set secondary groups.  Under the
guard `cnt > 0` the index `&gids[0]` is in range, so the function cannot panic. -/
def GetGroups {σ : Type} (os : OS σ) (w : World σ) :
    (List Int × Option GoError) × World σ :=
  match os.getgroups 0 w.os with
  | (cnt, _, s1) =>
    if cnt > 0 then
      match os.getgroups cnt s1 with
      | (err, written, s2) =>
        if err < 0 then (([], some (.errorString "GetGroups call failed")), { w with os := s2 })
        else (((fillBuf cnt.toNat written).map gidToInt, none), { w with os := s2 })
    else (([], none), { w with os := s1 })

/-- The copy loop of `DropGroup`: `for i, v := range currentGroups`, started at index `i`
with counter `found` and scratch slice `newGroups`.  It returns the final `found` and
`newGroups`. -/
def dropLoop (group : Int) : List Int → Nat → Nat → List Int → Res (Nat × List Int)
  | [], _, found, newGroups => .ret (found, newGroups)
  | v :: rest, i, found, newGroups =>
    if v = group then dropLoop group rest (i + 1) (found + 1) newGroups
    else
      match setIndex newGroups ((i : Int) - (found : Int)) v with
      | .ret newGroups1 => dropLoop group rest (i + 1) found newGroups1
      | .panicked p => .panicked p

/-- The write indices `i - found` the copy loop of `DropGroup` uses, in order (the same
loop, recording the index of each assignment instead of performing it). -/
def dropLoopWrites (group : Int) : List Int → Nat → Nat → List Int
  | [], _, _ => []
  | v :: rest, i, found =>
    if v = group then dropLoopWrites group rest (i + 1) (found + 1)
    else ((i : Int) - (found : Int)) :: dropLoopWrites group rest (i + 1) found

/-- Remove a group from the secondary group list. -/
def DropGroup {σ : Type} (os : OS σ) (group : Int) (w : World σ) :
    Res (Option GoError) × World σ :=
  match GetGroups os w with
  | ((currentGroups, err), w1) =>
    if err ≠ none ∨ currentGroups.length = 0 then (.ret err, w1)
    else
      match makeInts ((currentGroups.length : Int) - 1) with
      | .panicked p => (.panicked p, w1)
      | .ret newGroups =>
        match dropLoop group currentGroups 0 0 newGroups with
        | .panicked p => (.panicked p, w1)
        | .ret (found, newGroups1) =>
          if found = 0 then (.ret none, w1)
          else
            match sliceTo newGroups1 ((currentGroups.length : Int) - (found : Int)) with
            | .panicked p => (.panicked p, w1)
            | .ret s => SetGroups os s w1

/-- Add a group to the secondary group list. -/
def AddGroup {σ : Type} (os : OS σ) (group : Int) (w : World σ) :
    Res (Option GoError) × World σ :=
  match GetGroups os w with
  | ((currentGroups, err), w1) =>
    if err ≠ none then (.ret err, w1)
    else if currentGroups.any (fun v => v == group) then (.ret none, w1)
    else SetGroups os (currentGroups ++ [group]) w1

/-! ## Concrete kernels -/

/-- A kernel that stores the list handed to `setgroups` and whose calls all succeed:
`getgroups(0, nil)` returns the number of groups and `getgroups(size, list)` with room
for all of them writes them and returns their number (POSIX fails the call when
`0 < size` is too small). -/
def storingOS : OS (List Nat) where
  getgroups := fun size s =>
    if size = 0 then ((s.length : Int), [], s)
    else if size < (s.length : Int) then (-1, [], s)
    else ((s.length : Int), s, s)
  setgroups := fun size gids _ => (0, gids.take size)

/-- A kernel without privilege and with a failing read: the count query answers, the
call that fills the buffer fails, and `setgroups` fails with `-1`. -/
def denyingOS : OS (List Nat) where
  getgroups := fun size s => if size = 0 then ((s.length : Int), [], s) else (-1, [], s)
  setgroups := fun _ _ s => (-1, s)

/-- A kernel whose `getgroups` always reports failure. -/
def brokenOS : OS (List Nat) where
  getgroups := fun _ s => (-1, [], s)
  setgroups := fun _ _ s => (-1, s)

/-- A PAM library that knows user and remote host of handle `1` only; any other handle
gets `PAM_SYSTEM_ERR` (4). -/
def demoPAM : PAM (List Nat) where
  PAM_RHOST := 4
  pam_get_user := fun h s => if h = 1 then (0, some "alice", s) else (4, none, s)
  pam_get_item := fun h _ s => if h = 1 then (0, some "example.org", s) else (4, none, s)

/-- Calling `AddGroup(group)` `n` times in succession; a panic ends the run. -/
def AddGroupTimes {σ : Type} (os : OS σ) (group : Int) : Nat → World σ → Res Unit × World σ
  | 0, w => (.ret (), w)
  | n + 1, w =>
    match AddGroup os group w with
    | (.ret _, w1) => AddGroupTimes os group n w1
    | (.panicked p, w1) => (.panicked p, w1)

/-! ## Basic facts about the primitives -/

theorem setIndex_inRange (s : List Int) (k : Nat) (v : Int) (h : k < s.length) :
    setIndex s (k : Int) v = .ret (s.set k v) := by
  have h1 : (0 : Int) ≤ (k : Int) ∧ (k : Int) < (s.length : Int) := by omega
  simp [setIndex, h1]

theorem setIndex_outOfRange (s : List Int) (k : Nat) (v : Int) (h : s.length ≤ k) :
    setIndex s (k : Int) v = .panicked (.indexOutOfRange (k : Int) s.length) := by
  have h1 : ¬ ((0 : Int) ≤ (k : Int) ∧ (k : Int) < (s.length : Int)) := by omega
  simp only [setIndex, h1, if_false]

theorem sliceTo_inRange (s : List Int) (k : Nat) (h : k ≤ s.length) :
    sliceTo s (k : Int) = .ret (s.take k) := by
  have h1 : (0 : Int) ≤ (k : Int) ∧ (k : Int) ≤ (s.length : Int) := by omega
  simp [sliceTo, h1]

theorem makeInts_natCast (n : Nat) : makeInts (n : Int) = .ret (List.replicate n 0) := by
  have h1 : ¬ ((n : Int) < 0) := by omega
  simp [makeInts, h1]

theorem take_succ_set (s : List Int) (k : Nat) (v : Int) (h : k < s.length) :
    (s.set k v).take (k + 1) = s.take k ++ [v] := by
  rw [List.set_eq_take_append_cons_drop, if_pos h]
  have hl : (s.take k).length = k := by simp; omega
  rw [List.take_append_eq_append_take, hl]
  simp [List.take_of_length_le, hl]

/-- The number of kept elements plus the number of dropped ones is the length. -/
theorem length_filter_ne_add_count (group : Int) (l : List Int) :
    (l.filter (fun v => decide (v ≠ group))).length + l.count group = l.length := by
  induction l with
  | nil => simp
  | cons v rest ih =>
    by_cases hv : v = group
    · subst hv; simp at ih ⊢; omega
    · have hv2 : ¬ (v == group) = true := by simpa using hv
      simp [List.filter_cons, hv, List.count_cons, hv2] at ih ⊢; omega

/-! ## The copy loop of `DropGroup` -/

/-- Closed form of the copy loop: when the kept elements of the remaining input fit
behind the write position `i - found`, the loop does not panic, counts the occurrences of
`group`, and writes the kept elements in order from the write position on. -/
theorem dropLoop_fits (group : Int) :
    ∀ (rest : List Int) (i found : Nat) (ng : List Int), found ≤ i →
      (i - found) + (rest.filter (fun v => decide (v ≠ group))).length ≤ ng.length →
      dropLoop group rest i found ng =
        .ret (found + rest.count group,
          ng.take (i - found) ++ rest.filter (fun v => decide (v ≠ group))
            ++ ng.drop ((i - found) + (rest.filter (fun v => decide (v ≠ group))).length)) := by
  intro rest
  induction rest with
  | nil => intro i found ng _ _; simp [dropLoop]
  | cons v rest ih =>
    intro i found ng hle hfit
    by_cases hv : v = group
    · subst hv
      have hfit2 : (i + 1 - (found + 1))
          + (rest.filter (fun x => decide (x ≠ v))).length ≤ ng.length := by
        simpa [Nat.add_sub_add_right] using hfit
      have := ih (i + 1) (found + 1) ng (by omega) hfit2
      simp only [dropLoop, if_true, this]
      simp [Nat.add_sub_add_right]
      omega
    · have hf : (v :: rest).filter (fun x => decide (x ≠ group))
          = v :: rest.filter (fun x => decide (x ≠ group)) := by
        simp [List.filter_cons, hv]
      rw [hf] at hfit ⊢
      simp only [List.length_cons] at hfit ⊢
      have hk : i - found < ng.length := by omega
      have hidx : (i : Int) - (found : Int) = ((i - found : Nat) : Int) := by omega
      have hsucc : i + 1 - found = (i - found) + 1 := by omega
      have hv2 : ¬ (v == group) = true := by simpa using hv
      have := ih (i + 1) found (ng.set (i - found) v) (by omega)
        (by rw [hsucc, List.length_set]; omega)
      simp only [dropLoop, hv, if_false, hidx, setIndex_inRange ng (i - found) v hk, this]
      rw [hsucc, take_succ_set ng (i - found) v hk,
        List.drop_set_of_lt v ng (by omega : i - found < i - found + 1 + _)]
      simp [List.count_cons, hv2, Nat.add_assoc, Nat.add_comm 1]

/-- When `group` does not occur in the remaining input and the remaining input does not
fit behind the write position, the loop panics on an index out of range. -/
theorem dropLoop_absent_panics (group : Int) :
    ∀ (rest : List Int) (i found : Nat) (ng : List Int), found ≤ i → group ∉ rest →
      ng.length < (i - found) + rest.length →
      (i - found) ≤ ng.length →
      dropLoop group rest i found ng
        = .panicked (.indexOutOfRange (ng.length : Int) ng.length) := by
  intro rest
  induction rest with
  | nil => intro i found ng _ _ h1 h2; simp at h1; omega
  | cons v rest ih =>
    intro i found ng hle hmem hlt hpos
    have hv : v ≠ group := fun h => hmem (by simp [h])
    have hrest : group ∉ rest := fun h => hmem (by simp [h])
    have hidx : (i : Int) - (found : Int) = ((i - found : Nat) : Int) := by omega
    by_cases hk : i - found < ng.length
    · have := ih (i + 1) found (ng.set (i - found) v) (by omega) hrest
        (by rw [List.length_set]; simp only [List.length_cons] at hlt; omega)
        (by rw [List.length_set]; omega)
      simp only [dropLoop, hv, if_false, hidx, setIndex_inRange ng (i - found) v hk, this,
        List.length_set]
    · have hidx2 : (i : Int) - (found : Int) = (ng.length : Int) := by omega
      simp only [dropLoop, hv, if_false, hidx2,
        setIndex_outOfRange ng ng.length v (le_refl _)]

/-- Every write index of the copy loop lies between the write position at loop entry and
that position plus the number of kept elements. -/
theorem dropLoopWrites_bounds (group : Int) :
    ∀ (rest : List Int) (i found : Nat), found ≤ i →
      ∀ idx ∈ dropLoopWrites group rest i found,
        ((i - found : Nat) : Int) ≤ idx ∧
        idx < ((i - found : Nat) : Int)
          + ((rest.filter (fun v => decide (v ≠ group))).length : Int) := by
  intro rest
  induction rest with
  | nil => intro i found _ idx h; simp [dropLoopWrites] at h
  | cons v rest ih =>
    intro i found hle idx hidx
    by_cases hv : v = group
    · subst hv
      simp only [dropLoopWrites, if_true] at hidx
      have := ih (i + 1) (found + 1) (by omega) idx hidx
      simpa [Nat.add_sub_add_right] using this
    · simp only [dropLoopWrites, hv, if_false, List.mem_cons] at hidx
      have hf : (v :: rest).filter (fun x => decide (x ≠ group))
          = v :: rest.filter (fun x => decide (x ≠ group)) := by
        simp [List.filter_cons, hv]
      rw [hf, List.length_cons]
      rcases hidx with h | h
      · subst h; omega
      · have := ih (i + 1) found (by omega) idx h
        have hsucc : i + 1 - found = (i - found) + 1 := by omega
        rw [hsucc] at this
        omega

/-- The checked loop returns exactly when every write index it uses is in range of the
scratch slice. -/
theorem dropLoop_returns_iff (group : Int) :
    ∀ (rest : List Int) (i found : Nat) (ng : List Int),
      (∃ r, dropLoop group rest i found ng = .ret r)
        ↔ ∀ idx ∈ dropLoopWrites group rest i found, 0 ≤ idx ∧ idx < (ng.length : Int) := by
  intro rest
  induction rest with
  | nil => intro i found ng; simp [dropLoop, dropLoopWrites]
  | cons v rest ih =>
    intro i found ng
    by_cases hv : v = group
    · subst hv
      simp only [dropLoop, dropLoopWrites, if_true]
      exact ih (i + 1) (found + 1) ng
    · simp only [dropLoop, dropLoopWrites, hv, if_false, List.mem_cons, forall_eq_or_imp]
      by_cases hin : 0 ≤ (i : Int) - (found : Int) ∧ (i : Int) - (found : Int) < (ng.length : Int)
      · have hset : setIndex ng ((i : Int) - (found : Int)) v
            = .ret (ng.set ((i : Int) - (found : Int)).toNat v) := by
          simp only [setIndex, hin, and_self, if_true]
        rw [hset]
        simp only
        rw [ih (i + 1) found (ng.set ((i : Int) - (found : Int)).toNat v), List.length_set]
        exact ⟨fun h => ⟨hin, h⟩, fun h => h.2⟩
      · have hset : setIndex ng ((i : Int) - (found : Int)) v
            = .panicked (.indexOutOfRange ((i : Int) - (found : Int)) ng.length) := by
          simp only [setIndex, hin, if_false]
        rw [hset]
        simp only
        constructor
        · rintro ⟨r, hr⟩; cases hr
        · intro h; exact absurd h.1 hin

/-! ## Facts about single calls -/

theorem GetGroups_calls {σ : Type} (os : OS σ) (w : World σ) :
    (GetGroups os w).2.calls = w.calls := by
  unfold GetGroups
  split
  split
  · split
    split <;> rfl
  · rfl

theorem SetGroups_calls {σ : Type} (os : OS σ) (groups : List Int) (w : World σ) :
    (SetGroups os groups w).2.calls = w.calls ++ [groups] := by
  unfold SetGroups
  simp only
  split
  · split <;> rfl
  · rfl

/-- On a non-empty list `SetGroups` makes the system call and returns: nil when the call
returns `0`, else the `pamError` of the returned code. -/
theorem SetGroups_nonempty {σ : Type} (os : OS σ) (groups : List Int) (w : World σ)
    (hne : groups ≠ []) :
    SetGroups os groups w =
      (.ret (if (os.setgroups groups.length (groups.map intToGid) w.os).1 = 0 then none
          else some (.pam ⟨(os.setgroups groups.length (groups.map intToGid) w.os).1⟩)),
        ⟨(os.setgroups groups.length (groups.map intToGid) w.os).2, w.calls ++ [groups]⟩) := by
  have hlen : 0 < (groups.map intToGid).length := by
    simpa using List.length_pos.mpr hne
  unfold SetGroups
  simp only [hlen, if_true, PAM_SUCCESS]
  by_cases hr : (os.setgroups groups.length (groups.map intToGid) w.os).1 = 0
  · simp [hr]
  · simp [hr]

/-- The run of `DropGroup` after a successful read of a list that contains `group`: no
index is out of range and `SetGroups` is called on the filtered list. -/
theorem DropGroup_of_mem {σ : Type} (os : OS σ) (g : Int) (w w1 : World σ) (cur : List Int)
    (hget : GetGroups os w = ((cur, none), w1)) (hmem : g ∈ cur) :
    DropGroup os g w = SetGroups os (cur.filter (fun v => decide (v ≠ g))) w1 := by
  have hcount : 0 < cur.count g := List.count_pos_iff.mpr hmem
  have hsum := length_filter_ne_add_count g cur
  have hlen : ¬ (cur.length = 0) := by omega
  have hmk : (cur.length : Int) - 1 = ((cur.length - 1 : Nat) : Int) := by omega
  have hloop := dropLoop_fits g cur 0 0 (List.replicate (cur.length - 1) 0) (le_refl _)
    (by simp only [List.length_replicate]; omega)
  have hfound : ¬ (0 + cur.count g = 0) := by omega
  have hhi : (cur.length : Int) - ((0 + cur.count g : Nat) : Int)
      = (((cur.filter (fun v => decide (v ≠ g))).length : Nat) : Int) := by omega
  unfold DropGroup
  simp only [hget, hlen, ne_eq, not_true_eq_false, or_self, if_false, hmk, makeInts_natCast,
    hloop, hfound, hhi]
  rw [sliceTo_inRange _ _ (by simp)]
  simp

/-- The run of `DropGroup` after a successful read of a non-empty list that does not
contain `group`: the last assignment of the copy loop is out of range. -/
theorem DropGroup_of_not_mem {σ : Type} (os : OS σ) (g : Int) (w w1 : World σ)
    (cur : List Int) (hget : GetGroups os w = ((cur, none), w1)) (hne : cur ≠ [])
    (hmem : g ∉ cur) :
    DropGroup os g w
      = (.panicked (.indexOutOfRange ((cur.length - 1 : Nat) : Int) (cur.length - 1)), w1) := by
  have hpos : 0 < cur.length := List.length_pos.mpr hne
  have hlen : ¬ (cur.length = 0) := by omega
  have hmk : (cur.length : Int) - 1 = ((cur.length - 1 : Nat) : Int) := by omega
  have hloop := dropLoop_absent_panics g cur 0 0 (List.replicate (cur.length - 1) 0)
    (le_refl _) hmem (by simp; omega) (by simp)
  simp only [List.length_replicate] at hloop
  unfold DropGroup
  simp only [hget, hlen, ne_eq, not_true_eq_false, or_self, if_false, hmk, makeInts_natCast,
    hloop]

/-- The run of `DropGroup` after a read that yields the empty list: the guard returns the
error of the read (nil after a successful read) and nothing else happens. -/
theorem DropGroup_of_empty {σ : Type} (os : OS σ) (g : Int) (w w1 : World σ)
    (err : Option GoError) (hget : GetGroups os w = (([], err), w1)) :
    DropGroup os g w = (.ret err, w1) := by
  unfold DropGroup
  simp [hget]

/-- A failure of the count query `getgroups(0, nil)` is not reported: the function falls
through to its final `return` with a nil error. -/
theorem GetGroups_count_failure {σ : Type} (os : OS σ) (w : World σ)
    (h : (os.getgroups 0 w.os).1 < 0) : (GetGroups os w).1 = ([], none) := by
  have h1 : ¬ ((os.getgroups 0 w.os).1 > 0) := by omega
  unfold GetGroups
  simp only [h1, if_false]

/-- A failure of the call that fills the buffer is reported as the generic error. -/
theorem GetGroups_fill_failure {σ : Type} (os : OS σ) (w : World σ)
    (h0 : (os.getgroups 0 w.os).1 > 0)
    (h1 : (os.getgroups (os.getgroups 0 w.os).1 (os.getgroups 0 w.os).2.2).1 < 0) :
    (GetGroups os w).1 = ([], some (.errorString "GetGroups call failed")) := by
  unfold GetGroups
  simp only [h0, h1, if_true]

/-! ## The storing kernel -/

theorem gidToInt_intToGid (g : Int) (h0 : 0 ≤ g) (h1 : g < 2 ^ 32) :
    gidToInt (intToGid g) = g := by
  unfold gidToInt intToGid
  omega

theorem intToGid_gidToInt (v : Nat) : gidToInt (intToGid (gidToInt v)) = gidToInt v := by
  unfold gidToInt intToGid
  omega

theorem fillBuf_length (s : List Nat) : fillBuf s.length s = s := by
  unfold fillBuf
  exact List.take_left s _

/-- Reading the groups of the storing kernel yields the stored list and changes nothing. -/
theorem GetGroups_storingOS (s : List Nat) (c : List (List Int)) :
    GetGroups storingOS ⟨s, c⟩ = ((s.map gidToInt, none), ⟨s, c⟩) := by
  cases s with
  | nil => simp [GetGroups, storingOS]
  | cons a t =>
    have hpos : ((a :: t).length : Int) > 0 := by simp only [List.length_cons]; omega
    have hne : ¬ (((a :: t).length : Int) = 0) := by omega
    have hlt : ¬ (((a :: t).length : Int) < ((a :: t).length : Int)) := by omega
    have hneg : ¬ (((a :: t).length : Int) < 0) := by omega
    simp only [GetGroups, storingOS, if_true, hpos, hne, hlt, hneg, if_false,
      Int.toNat_ofNat, fillBuf_length]

/-- The run of `AddGroup` after a successful read. -/
theorem AddGroup_of_read {σ : Type} (os : OS σ) (g : Int) (w w1 : World σ) (cur : List Int)
    (hget : GetGroups os w = ((cur, none), w1)) :
    AddGroup os g w
      = if g ∈ cur then (.ret none, w1) else SetGroups os (cur ++ [g]) w1 := by
  unfold AddGroup
  by_cases hmem : g ∈ cur
  · have hany : cur.any (fun v => v == g) = true := by
      simp only [List.any_eq_true, beq_iff_eq]; exact ⟨g, hmem, rfl⟩
    simp [hget, hany, hmem]
  · have hany : ¬ (cur.any (fun v => v == g) = true) := by
      simp only [List.any_eq_true, beq_iff_eq, not_exists, not_and]
      intro x hx hxg; exact hmem (hxg ▸ hx)
    simp [hget, hany, hmem]

theorem AddGroup_storingOS_mem (s : List Nat) (c : List (List Int)) (g : Int)
    (h : g ∈ s.map gidToInt) : AddGroup storingOS g ⟨s, c⟩ = (.ret none, ⟨s, c⟩) := by
  rw [AddGroup_of_read storingOS g _ _ _ (GetGroups_storingOS s c), if_pos h]

theorem AddGroup_storingOS_not_mem (s : List Nat) (c : List (List Int)) (g : Int)
    (h : g ∉ s.map gidToInt) :
    AddGroup storingOS g ⟨s, c⟩
      = (.ret none,
          ⟨(s.map gidToInt ++ [g]).map intToGid, c ++ [s.map gidToInt ++ [g]]⟩) := by
  rw [AddGroup_of_read storingOS g _ _ _ (GetGroups_storingOS s c), if_neg h,
    SetGroups_nonempty storingOS _ _ (by simp)]
  have hlen : (s.map gidToInt ++ [g]).length
      = ((s.map gidToInt ++ [g]).map intToGid).length := by simp
  simp only [storingOS, if_true]
  rw [hlen, List.take_length]

/-- What a read of the storing kernel shows after `g` was appended. -/
theorem view_after_append (s : List Nat) (g : Int) (h0 : 0 ≤ g) (h1 : g < 2 ^ 32) :
    ((s.map gidToInt ++ [g]).map intToGid).map gidToInt = s.map gidToInt ++ [g] := by
  simp only [List.map_append, List.map_map, List.map_cons, List.map_nil,
    gidToInt_intToGid g h0 h1]
  congr 1
  apply List.map_congr_left
  intro v _
  exact intToGid_gidToInt v

/-- Once `g` is in the list, further calls of `AddGroup(g)` change nothing. -/
theorem AddGroupTimes_storingOS_mem (s : List Nat) (c : List (List Int)) (g : Int)
    (h : g ∈ s.map gidToInt) :
    ∀ n : Nat, AddGroupTimes storingOS g n ⟨s, c⟩ = (.ret (), ⟨s, c⟩) := by
  intro n
  induction n with
  | zero => rfl
  | succ n ih => simp only [AddGroupTimes, AddGroup_storingOS_mem s c g h, ih]

/-! ## The claims -/

/-- C1: `DropGroup(g)` on a non-empty list without `g` should be a no-op returning nil.
With the current list `[1000]`, `DropGroup(5)` instead panics: the scratch slice has length
`0` and the copy loop assigns `newGroups[0]`.  No call of `SetGroups` is made. -/
theorem DropGroup_absent_group_panics :
    DropGroup storingOS 5 ⟨[1000], []⟩
      = (.panicked (.indexOutOfRange 0 0), ⟨[1000], []⟩) :=
  DropGroup_of_not_mem storingOS 5 ⟨[1000], []⟩ ⟨[1000], []⟩ [1000]
    (GetGroups_storingOS [1000] []) (by decide) (by decide)

/-- C2: when the list `cur` read by `GetGroups` contains `g`, `DropGroup(g)` behaves as the
single call `SetGroups(cur.filter (≠ g))` made after the read: same outcome, and the log of
`SetGroups` calls grows by exactly that list, which does not contain `g` and is `cur` with
elements deleted, order kept.  When the filtered list is non-empty the call returns. -/
theorem DropGroup_present_calls_SetGroups {σ : Type} (os : OS σ) (g : Int)
    (w w1 : World σ) (cur : List Int)
    (hget : GetGroups os w = ((cur, none), w1)) (hmem : g ∈ cur) :
    DropGroup os g w = SetGroups os (cur.filter (fun v => decide (v ≠ g))) w1
    ∧ (DropGroup os g w).2.calls = w.calls ++ [cur.filter (fun v => decide (v ≠ g))]
    ∧ g ∉ cur.filter (fun v => decide (v ≠ g))
    ∧ (∀ x, x ∈ cur.filter (fun v => decide (v ≠ g)) ↔ x ∈ cur ∧ x ≠ g)
    ∧ List.Sublist (cur.filter (fun v => decide (v ≠ g))) cur
    ∧ (cur.filter (fun v => decide (v ≠ g)) = []
        ∨ ∃ e w2, DropGroup os g w = (.ret e, w2)) := by
  have hrun := DropGroup_of_mem os g w w1 cur hget hmem
  have hc : w1.calls = w.calls := by
    have := GetGroups_calls os w
    rw [hget] at this
    exact this
  refine ⟨hrun, ?_, ?_, ?_, List.filter_sublist _, ?_⟩
  · rw [hrun, SetGroups_calls, hc]
  · simp [List.mem_filter]
  · intro x; simp [List.mem_filter]
  · by_cases hnil : cur.filter (fun v => decide (v ≠ g)) = []
    · exact Or.inl hnil
    · exact Or.inr ⟨_, _, hrun.trans (SetGroups_nonempty os _ w1 hnil)⟩

/-- C2 at the list `[1000, 1001, 1002]`: `DropGroup(1001)` passes `[1000, 1002]`. -/
theorem DropGroup_present_calls_SetGroups_witness :
    GetGroups storingOS ⟨[1000, 1001, 1002], []⟩
      = (([1000, 1001, 1002], none), ⟨[1000, 1001, 1002], []⟩)
    ∧ (1001 : Int) ∈ [(1000 : Int), 1001, 1002]
    ∧ DropGroup storingOS 1001 ⟨[1000, 1001, 1002], []⟩
      = SetGroups storingOS [1000, 1002] ⟨[1000, 1001, 1002], []⟩
    ∧ (DropGroup storingOS 1001 ⟨[1000, 1001, 1002], []⟩).2.calls = [[1000, 1002]] :=
  ⟨by decide, by decide,
    (DropGroup_present_calls_SetGroups storingOS 1001 ⟨[1000, 1001, 1002], []⟩
      ⟨[1000, 1001, 1002], []⟩ [1000, 1001, 1002] (by decide) (by decide)).1,
    by decide⟩

/-- C3: `SetGroups` on the empty list should set the empty group list.  It instead panics
on `&gids[0]` (index 0 of a slice of length 0), for every kernel, before `setgroups` is
called; the kernel state is untouched. -/
theorem SetGroups_empty_panics {σ : Type} (os : OS σ) (w : World σ) :
    SetGroups os [] w = (.panicked (.indexOutOfRange 0 0), ⟨w.os, w.calls ++ [[]]⟩) := by
  rfl

/-- C4: a failure of `getgroups` should give a non-nil error.  When the count query
`getgroups(0, nil)` fails (returns `-1`), `GetGroups` returns the nil slice and a nil
error. -/
theorem GetGroups_count_failure_nil_error :
    GetGroups brokenOS ⟨[1000], []⟩ = (([], none), ⟨[1000], []⟩) := by
  decide

/-- C5 as stated fails: with the initial list `[5, 5]`, after one `AddGroup(5)` the group
`5` occurs twice; and after one `AddGroup(-1)` on the empty list the group `-1` does not
occur at all (the kernel holds `4294967295`). -/
theorem AddGroup_exactly_once_fails :
    (GetGroups storingOS (AddGroupTimes storingOS 5 1 ⟨[5, 5], []⟩).2).1.1.count 5 ≠ 1
    ∧ (GetGroups storingOS (AddGroupTimes storingOS (-1) 1 ⟨[], []⟩).2).1.1.count (-1) ≠ 1 := by
  decide

/-- C5, amended: on the storing kernel, for a group `g` with `0 ≤ g < 2^32` that occurs at
most once in the initial list, and every `n ≥ 1`, the `n` calls of `AddGroup(g)` all
return, and `GetGroups` then succeeds with a list in which `g` occurs exactly once. -/
theorem AddGroup_repeated_exactly_once (s : List Nat) (c : List (List Int)) (g : Int)
    (n : Nat) (hn : 1 ≤ n) (h0 : 0 ≤ g) (h1 : g < 2 ^ 32)
    (hinit : (GetGroups storingOS ⟨s, c⟩).1.1.count g ≤ 1) :
    ∃ w1, AddGroupTimes storingOS g n ⟨s, c⟩ = (.ret (), w1)
      ∧ (GetGroups storingOS w1).1.2 = none
      ∧ (GetGroups storingOS w1).1.1.count g = 1 := by
  obtain ⟨m, rfl⟩ : ∃ m, n = m + 1 := ⟨n - 1, by omega⟩
  rw [GetGroups_storingOS] at hinit
  simp only at hinit
  by_cases hmem : g ∈ s.map gidToInt
  · refine ⟨⟨s, c⟩, AddGroupTimes_storingOS_mem s c g hmem (m + 1), ?_, ?_⟩
    · rw [GetGroups_storingOS]
    · rw [GetGroups_storingOS]
      have := List.count_pos_iff.mpr hmem
      simp only
      omega
  · have hview := view_after_append s g h0 h1
    have hmem2 : g ∈ ((s.map gidToInt ++ [g]).map intToGid).map gidToInt := by
      rw [hview]; simp
    refine ⟨⟨(s.map gidToInt ++ [g]).map intToGid, c ++ [s.map gidToInt ++ [g]]⟩, ?_, ?_, ?_⟩
    · simp only [AddGroupTimes, AddGroup_storingOS_not_mem s c g hmem]
      exact AddGroupTimes_storingOS_mem _ _ g hmem2 m
    · rw [GetGroups_storingOS]
    · rw [GetGroups_storingOS]
      simp only
      rw [hview, List.count_append, List.count_eq_zero.mpr hmem]
      simp

/-- C5, amended, at the initial list `[1000, 1002]` with three calls of `AddGroup(1001)`. -/
theorem AddGroup_repeated_exactly_once_witness :
    1 ≤ 3 ∧ (0 : Int) ≤ 1001 ∧ (1001 : Int) < 2 ^ 32
    ∧ (GetGroups storingOS ⟨[1000, 1002], []⟩).1.1.count 1001 ≤ 1
    ∧ ∃ w1, AddGroupTimes storingOS 1001 3 ⟨[1000, 1002], []⟩ = (.ret (), w1)
        ∧ (GetGroups storingOS w1).1.2 = none
        ∧ (GetGroups storingOS w1).1.1.count 1001 = 1 :=
  ⟨by decide, by decide, by decide, by decide,
    AddGroup_repeated_exactly_once [1000, 1002] [] 1001 3 (by decide) (by decide)
      (by decide) (by decide)⟩

/-- C6: after a successful read of the list `cur`, `AddGroup(g)` returns nil without a
`SetGroups` call when `g` occurs in `cur`, and otherwise behaves as the single call
`SetGroups(cur ++ [g])`; in both cases it returns. -/
theorem AddGroup_after_read {σ : Type} (os : OS σ) (g : Int) (w w1 : World σ)
    (cur : List Int) (hget : GetGroups os w = ((cur, none), w1)) :
    AddGroup os g w = (if g ∈ cur then (.ret none, w1) else SetGroups os (cur ++ [g]) w1)
    ∧ (AddGroup os g w).2.calls = (if g ∈ cur then w.calls else w.calls ++ [cur ++ [g]])
    ∧ ∃ e w2, AddGroup os g w = (.ret e, w2) := by
  have hrun := AddGroup_of_read os g w w1 cur hget
  have hc : w1.calls = w.calls := by
    have := GetGroups_calls os w
    rw [hget] at this
    exact this
  by_cases hmem : g ∈ cur
  · rw [if_pos hmem] at hrun
    exact ⟨by rw [hrun, if_pos hmem], by rw [hrun, if_pos hmem, hc], _, _, hrun⟩
  · rw [if_neg hmem] at hrun
    refine ⟨by rw [hrun, if_neg hmem], ?_, _, _,
      hrun.trans (SetGroups_nonempty os (cur ++ [g]) w1 (by simp))⟩
    rw [hrun, if_neg hmem, SetGroups_calls, hc]

/-- C6 at the list `[1000, 1002]`: `AddGroup(1001)` passes `[1000, 1002, 1001]`. -/
theorem AddGroup_after_read_witness :
    GetGroups storingOS ⟨[1000, 1002], []⟩ = (([1000, 1002], none), ⟨[1000, 1002], []⟩)
    ∧ AddGroup storingOS 1001 ⟨[1000, 1002], []⟩
        = SetGroups storingOS [1000, 1002, 1001] ⟨[1000, 1002], []⟩
    ∧ (AddGroup storingOS 1001 ⟨[1000, 1002], []⟩).2.calls = [[1000, 1002, 1001]] :=
  ⟨by decide,
    (AddGroup_after_read storingOS 1001 ⟨[1000, 1002], []⟩ ⟨[1000, 1002], []⟩ [1000, 1002]
      (by decide)).1,
    (AddGroup_after_read storingOS 1001 ⟨[1000, 1002], []⟩ ⟨[1000, 1002], []⟩ [1000, 1002]
      (by decide)).2.1⟩

/-- C7: when `GetGroups` returns the error `e`, `DropGroup(g)` and `AddGroup(g)` both return
exactly `e`, in the world the read left behind, whose log of `SetGroups` calls is the one
from before the call. -/
theorem read_error_is_returned {σ : Type} (os : OS σ) (g : Int) (w w1 : World σ)
    (cur : List Int) (e : GoError) (hget : GetGroups os w = ((cur, some e), w1)) :
    DropGroup os g w = (.ret (some e), w1)
    ∧ AddGroup os g w = (.ret (some e), w1)
    ∧ w1.calls = w.calls := by
  refine ⟨?_, ?_, ?_⟩
  · unfold DropGroup
    simp [hget]
  · unfold AddGroup
    simp [hget]
  · have := GetGroups_calls os w
    rw [hget] at this
    exact this

/-- C7 on a kernel whose second `getgroups` call fails. -/
theorem read_error_is_returned_witness :
    GetGroups denyingOS ⟨[1000], []⟩
      = (([], some (.errorString "GetGroups call failed")), ⟨[1000], []⟩)
    ∧ DropGroup denyingOS 1000 ⟨[1000], []⟩
      = (.ret (some (.errorString "GetGroups call failed")), ⟨[1000], []⟩)
    ∧ AddGroup denyingOS 1001 ⟨[1000], []⟩
      = (.ret (some (.errorString "GetGroups call failed")), ⟨[1000], []⟩) :=
  ⟨by decide,
    (read_error_is_returned denyingOS 1000 ⟨[1000], []⟩ ⟨[1000], []⟩ []
      (.errorString "GetGroups call failed") (by decide)).1,
    (read_error_is_returned denyingOS 1001 ⟨[1000], []⟩ ⟨[1000], []⟩ []
      (.errorString "GetGroups call failed") (by decide)).2.1⟩

/-- C8: on a non-empty list `SetGroups` returns; with `r` the return value of `setgroups`,
the result is nil exactly when `r = 0` and otherwise the `pamError` carrying `r`, whose
message is `PAM error code ` followed by the decimal digits of `r`, after a minus sign when
`r` is negative. -/
theorem SetGroups_result {σ : Type} (os : OS σ) (groups : List Int) (w : World σ)
    (hne : groups ≠ []) :
    (SetGroups os groups w).1
      = .ret (if (os.setgroups groups.length (groups.map intToGid) w.os).1 = 0 then none
          else some (.pam ⟨(os.setgroups groups.length (groups.map intToGid) w.os).1⟩))
    ∧ ((SetGroups os groups w).1 = .ret none
        ↔ (os.setgroups groups.length (groups.map intToGid) w.os).1 = 0)
    ∧ (GoError.pam ⟨(os.setgroups groups.length (groups.map intToGid) w.os).1⟩).Error
        = "PAM error code "
          ++ (if (os.setgroups groups.length (groups.map intToGid) w.os).1 < 0
              then "-" ++ Nat.repr (os.setgroups groups.length (groups.map intToGid) w.os).1.natAbs
              else Nat.repr (os.setgroups groups.length (groups.map intToGid) w.os).1.natAbs) := by
  have hrun := SetGroups_nonempty os groups w hne
  refine ⟨by rw [hrun], ?_, rfl⟩
  rw [hrun]
  by_cases hr : (os.setgroups groups.length (groups.map intToGid) w.os).1 = 0
  · simp [hr]
  · simp [hr]

/-- C8 on a kernel whose `setgroups` returns `-1`: the error message is
`PAM error code -1`. -/
theorem SetGroups_result_witness :
    ([1000] : List Int) ≠ []
    ∧ (SetGroups denyingOS [1000] ⟨[], []⟩).1 = .ret (some (.pam ⟨-1⟩))
    ∧ (GoError.pam ⟨-1⟩).Error = "PAM error code -1" :=
  ⟨by decide, (SetGroups_result denyingOS [1000] ⟨[], []⟩ (by decide)).1,
    (SetGroups_result denyingOS [1000] ⟨[], []⟩ (by decide)).2.2⟩

/-- C9: `GetUser` returns a non-nil error exactly when `pam_get_user` returns a code other
than `PAM_SUCCESS`; then the string is empty and the error is the `pamError` of that code;
otherwise the error is nil and the string is the Go string of what PAM stored.  The same
holds for `GetRemoteHost` and `pam_get_item` with `PAM_RHOST`. -/
theorem GetUser_GetRemoteHost_result {σ : Type} (pam : PAM σ) (hdl : Handle) (w : World σ) :
    ((hdl.GetUser pam w).1.2 ≠ none ↔ (pam.pam_get_user hdl.Ptr w.os).1 ≠ PAM_SUCCESS)
    ∧ (hdl.GetUser pam w).1
        = (if (pam.pam_get_user hdl.Ptr w.os).1 ≠ PAM_SUCCESS
            then ("", some (.pam ⟨(pam.pam_get_user hdl.Ptr w.os).1⟩))
            else (GoString (pam.pam_get_user hdl.Ptr w.os).2.1, none))
    ∧ ((hdl.GetRemoteHost pam w).1.2 ≠ none
        ↔ (pam.pam_get_item hdl.Ptr pam.PAM_RHOST w.os).1 ≠ PAM_SUCCESS)
    ∧ (hdl.GetRemoteHost pam w).1
        = (if (pam.pam_get_item hdl.Ptr pam.PAM_RHOST w.os).1 ≠ PAM_SUCCESS
            then ("", some (.pam ⟨(pam.pam_get_item hdl.Ptr pam.PAM_RHOST w.os).1⟩))
            else (GoString (pam.pam_get_item hdl.Ptr pam.PAM_RHOST w.os).2.1, none))
    ∧ (∀ str : String, GoString (some str) = str) := by
  refine ⟨?_, ?_, ?_, ?_, fun _ => rfl⟩
  · unfold Handle.GetUser
    by_cases h : (pam.pam_get_user hdl.Ptr w.os).1 = PAM_SUCCESS <;> simp [h]
  · unfold Handle.GetUser
    by_cases h : (pam.pam_get_user hdl.Ptr w.os).1 = PAM_SUCCESS <;> simp [h]
  · unfold Handle.GetRemoteHost
    by_cases h : (pam.pam_get_item hdl.Ptr pam.PAM_RHOST w.os).1 = PAM_SUCCESS <;> simp [h]
  · unfold Handle.GetRemoteHost
    by_cases h : (pam.pam_get_item hdl.Ptr pam.PAM_RHOST w.os).1 = PAM_SUCCESS <;> simp [h]

/-- C9 on a PAM library that knows handle `1` only: handle `1` yields the user and the
host with a nil error, handle `2` yields the empty string and the `pamError` of code 4. -/
theorem GetUser_GetRemoteHost_result_witness :
    (Handle.GetUser demoPAM ⟨1⟩ ⟨[], []⟩).1 = ("alice", none)
    ∧ (Handle.GetRemoteHost demoPAM ⟨1⟩ ⟨[], []⟩).1 = ("example.org", none)
    ∧ (Handle.GetUser demoPAM ⟨2⟩ ⟨[], []⟩).1 = ("", some (.pam ⟨4⟩))
    ∧ (Handle.GetRemoteHost demoPAM ⟨2⟩ ⟨[], []⟩).1 = ("", some (.pam ⟨4⟩)) :=
  ⟨(GetUser_GetRemoteHost_result demoPAM ⟨1⟩ ⟨[], []⟩).2.1,
    (GetUser_GetRemoteHost_result demoPAM ⟨1⟩ ⟨[], []⟩).2.2.2.1,
    (GetUser_GetRemoteHost_result demoPAM ⟨2⟩ ⟨[], []⟩).2.1,
    (GetUser_GetRemoteHost_result demoPAM ⟨2⟩ ⟨[], []⟩).2.2.2.1⟩

/-- C10: for a list `cur` that contains `g`, every write index `i - found` of the copy loop
of `DropGroup` lies in `[0, n - 1)` with `n` the length of `cur`; the scratch slice is made,
the checked loop finishes without a panic, its final `found` satisfies
`0 ≤ n - found ≤ n - 1`, and the final slice expression is in range. -/
theorem DropGroup_indices_in_range (g : Int) (cur : List Int) (hmem : g ∈ cur) :
    1 ≤ cur.length
    ∧ (∀ idx ∈ dropLoopWrites g cur 0 0, 0 ≤ idx ∧ idx < (cur.length : Int) - 1)
    ∧ makeInts ((cur.length : Int) - 1) = .ret (List.replicate (cur.length - 1) 0)
    ∧ ∃ found ng,
        dropLoop g cur 0 0 (List.replicate (cur.length - 1) 0) = .ret (found, ng)
        ∧ ng.length = cur.length - 1
        ∧ 0 ≤ (cur.length : Int) - (found : Int)
        ∧ (cur.length : Int) - (found : Int) ≤ (cur.length : Int) - 1
        ∧ ∃ sl, sliceTo ng ((cur.length : Int) - (found : Int)) = .ret sl := by
  have hcount : 0 < cur.count g := List.count_pos_iff.mpr hmem
  have hsum := length_filter_ne_add_count g cur
  have hmk : (cur.length : Int) - 1 = ((cur.length - 1 : Nat) : Int) := by omega
  have hloop := dropLoop_fits g cur 0 0 (List.replicate (cur.length - 1) 0) (le_refl _)
    (by simp only [List.length_replicate]; omega)
  have hlen : (List.take (0 - 0) (List.replicate (cur.length - 1) (0 : Int))
      ++ cur.filter (fun v => decide (v ≠ g))
      ++ List.drop (0 - 0 + (cur.filter (fun v => decide (v ≠ g))).length)
          (List.replicate (cur.length - 1) (0 : Int))).length = cur.length - 1 := by
    simp only [List.length_append, List.length_take, List.length_drop,
      List.length_replicate]
    omega
  refine ⟨by omega, ?_, ?_, _, _, hloop, hlen, by omega, by omega, ?_⟩
  · intro idx hidx
    have := dropLoopWrites_bounds g cur 0 0 (le_refl _) idx hidx
    omega
  · rw [hmk, makeInts_natCast]
  · have hhi : (cur.length : Int) - ((0 + cur.count g : Nat) : Int)
        = (((cur.filter (fun v => decide (v ≠ g))).length : Nat) : Int) := by omega
    rw [hhi, sliceTo_inRange _ _ (by rw [hlen]; omega)]
    exact ⟨_, rfl⟩

/-- C10 at the list `[1000, 1001, 1002]` and the group `1001`: the write indices are
`0 - 0 = 0` and `2 - 1 = 1`, both below `2`. -/
theorem DropGroup_indices_in_range_witness :
    (1001 : Int) ∈ [(1000 : Int), 1001, 1002]
    ∧ (∀ idx ∈ dropLoopWrites 1001 [1000, 1001, 1002] 0 0, 0 ≤ idx ∧ idx < (3 : Int) - 1)
    ∧ dropLoopWrites 1001 [1000, 1001, 1002] 0 0 = [0, 1] :=
  ⟨by decide, (DropGroup_indices_in_range 1001 [1000, 1001, 1002] (by decide)).2.1,
    by decide⟩

end GoPam
